import Mathlib

/-!
Verification of the Government-of-Canada historical weather scraper
(`gc_ca_wather_scraper.py`) against its natural-language specification.

The Python source is shallowly embedded: the pure helper functions become
Lean functions on `String` / `List Char`, the Python values flowing through
the scraper become the `Value` type, the accumulating `dict` becomes an
association list with Python-dict update semantics, and the external HTTP
fetch becomes an oracle parameter producing already-parsed `Document` values.
-/

namespace Scraper

/-- A Python value as it flows through the scraper: the result of
`try_to_convert_to_numeric` and the default values used for persistence.
A Python `float` is carried as the (non-ASCII-stripped) numeric text it was
parsed from; no claim depends on float arithmetic, only on zero-ness and on
the digit content of its `str` form, which the text determines for the
exponent-free numeric fragment the scraper encounters. -/
inductive Value where
  | intV : Int → Value
  | floatV : String → Value
  | strV : String → Value
deriving DecidableEq

/-- Surrounding-whitespace trim, as Python `int()` / `float()` apply to their
argument before parsing. -/
def wsTrim (l : List Char) : List Char :=
  ((l.dropWhile Char.isWhitespace).reverse.dropWhile Char.isWhitespace).reverse

/-- Numeric value of a list of decimal digit characters. -/
def digitsToNat (l : List Char) : Nat :=
  l.foldl (fun acc c => acc * 10 + (c.toNat - '0'.toNat)) 0

/-- True when the list is a non-empty run of decimal digits. -/
def allDigits1 (l : List Char) : Bool :=
  !l.isEmpty && l.all Char.isDigit

/-- Core of Python `int(·)` on trimmed text: an optional sign followed by a
non-empty digit run (the fragment without underscores the scraper meets). -/
def intCore : List Char → Option Int
  | '+' :: rest => if allDigits1 rest then some ((digitsToNat rest : Nat) : Int) else none
  | '-' :: rest => if allDigits1 rest then some (-(digitsToNat rest : Nat) : Int) else none
  | l => if allDigits1 l then some ((digitsToNat l : Nat) : Int) else none

/-- Python `int(value)` on a string, `none` when it raises `ValueError`. -/
def pyIntParse (s : String) : Option Int :=
  intCore (wsTrim s.toList)

/-- Source `is_integer` (lines 67-72): whether `int(value)` succeeds. -/
def is_integer (s : String) : Bool :=
  (pyIntParse s).isSome

/-- The integer produced by `int(value)`; meaningful when `is_integer`. -/
def pyIntVal (s : String) : Int :=
  (pyIntParse s).getD 0

/-- Unsigned mantissa accepted by Python `float(·)`: `digits`, `digits.`,
`.digits` or `digits.digits` (the exponent-free, non-inf/nan fragment). -/
def mantissaOK (l : List Char) : Bool :=
  match l.dropWhile Char.isDigit with
  | [] => !(l.takeWhile Char.isDigit).isEmpty
  | c :: after => c == '.' && (!(l.takeWhile Char.isDigit).isEmpty || !after.isEmpty) && after.all Char.isDigit

/-- Optional sign in front of a float mantissa. -/
def floatCore : List Char → Bool
  | '+' :: rest => mantissaOK rest
  | '-' :: rest => mantissaOK rest
  | l => mantissaOK l

/-- Source `is_float` (lines 74-79): whether `float(value)` succeeds. -/
def is_float (s : String) : Bool :=
  floatCore (wsTrim s.toList)

/-- Whether the float denoted by the numeric text equals `0.0` (all mantissa
digits are `'0'`). -/
def float_is_zero (s : String) : Bool :=
  (s.toList.filter Char.isDigit).all (fun c => c == '0')

/-- Source `replace_all_non_ASCII` (lines 124-129), at its only call site the
replacement string is `''`, so the characters with code point >= 128 are
dropped; non-string inputs are returned unchanged by the source. -/
def replace_all_non_ASCII (s : String) : String :=
  String.mk (s.toList.filter (fun c => c.toNat < 128))

/-- Python `str(value)` for the values the scraper manipulates. For a zero
float the digit content of `str(0.0)` / `str(-0.0)` agrees with the stored
text (only `'0'` digits); for a non-zero float only the existence of a
non-zero digit matters to the scraper, which the text also preserves. -/
def py_str : Value → String
  | .intV n => toString n
  | .floatV s => s
  | .strV s => s

/-- Source `is_a_number` (lines 107-108): `isinstance(value, numbers.Number)`. -/
def is_a_number : Value → Bool
  | .intV _ => true
  | .floatV _ => true
  | .strV _ => false

/-- Python `value == 0` for the scraper's values (`False` on strings). -/
def py_eq_zero : Value → Bool
  | .intV n => n == 0
  | .floatV s => float_is_zero s
  | .strV _ => false

/-- Source `is_non_zero_numeric_value` (lines 101-102):
`is_a_number(value) and value != 0`. -/
def is_non_zero_numeric_value (v : Value) : Bool :=
  is_a_number v && !py_eq_zero v

/-- Source `has_non_zero_digits` (lines 113-114): a non-zero number, or some
digit other than `'0'` in the value's `str` form. -/
def has_non_zero_digits (v : Value) : Bool :=
  is_non_zero_numeric_value v || (py_str v).toList.any (fun c => c.isDigit && c != '0')

/-- Maximal leading digit run and the rest; used by the Legend regex model. -/
def takeDigits (l : List Char) : List Char × List Char :=
  (l.takeWhile Char.isDigit, l.dropWhile Char.isDigit)

/-- Longest match of the regex group `(\d*\.)?\d+` at the front of the list,
returning the matched numeric text and the remainder (the greedy behaviour of
`re.match(r"([+-]?(\d*\.)?\d+)(.*?)Legend(.*?)", value)` for group 1). -/
def leadNumericCore (l : List Char) : Option (List Char × List Char) :=
  match l.dropWhile Char.isDigit with
  | [] =>
      if (l.takeWhile Char.isDigit).isEmpty then none
      else some (l.takeWhile Char.isDigit, [])
  | c :: r2 =>
      if c = '.' then
        (if (r2.takeWhile Char.isDigit).isEmpty then
           (if (l.takeWhile Char.isDigit).isEmpty then none
            else some (l.takeWhile Char.isDigit, l.dropWhile Char.isDigit))
         else some (l.takeWhile Char.isDigit ++ '.' :: r2.takeWhile Char.isDigit, r2.dropWhile Char.isDigit))
      else
        (if (l.takeWhile Char.isDigit).isEmpty then none
         else some (l.takeWhile Char.isDigit, l.dropWhile Char.isDigit))

/-- The full regex group `[+-]?(\d*\.)?\d+` at the front of the list. -/
def leadNumeric (l : List Char) : Option (List Char × List Char) :=
  match l with
  | [] => none
  | c :: rest =>
      if c = '+' ∨ c = '-' then Option.map (fun p => (c :: p.1, p.2)) (leadNumericCore rest)
      else leadNumericCore (c :: rest)

/-- Shape check for the unsigned numeric group `(\d*\.)?\d+`. -/
def numericShapeCore (l : List Char) : Bool :=
  match l.dropWhile Char.isDigit with
  | [] => !(l.takeWhile Char.isDigit).isEmpty
  | c :: r2 => c == '.' && !r2.isEmpty && r2.all Char.isDigit

/-- Shape check for the signed numeric group `[+-]?(\d*\.)?\d+`. -/
def numericShape (l : List Char) : Bool :=
  match l with
  | [] => false
  | c :: rest => if c = '+' ∨ c = '-' then numericShapeCore rest else numericShapeCore (c :: rest)

/-- Does the first list occur at the front of the second one. -/
def listStartsWith : List Char → List Char → Bool
  | [], _ => true
  | _ :: _, [] => false
  | a :: as, b :: bs => a == b && listStartsWith as bs

/-- The characters of the literal marker `Legend`. -/
def legendChars : List Char :=
  ['L', 'e', 'g', 'e', 'n', 'd']

/-- Whether `(.*?)Legend` can match here: an occurrence of `Legend` reachable
through characters other than `'\n'` (which `.` does not match). -/
def legendReachable : List Char → Bool
  | [] => false
  | c :: rest => listStartsWith legendChars (c :: rest) || (c != '\n' && legendReachable rest)

/-- Model of `re.match(r"([+-]?(\d*\.)?\d+)(.*?)Legend(.*?)", value)` at
source line 94, returning `match.group(1)` on success. -/
def legendMatch (s : String) : Option String :=
  match leadNumeric s.toList with
  | some (num, rest) => if legendReachable rest then some (String.mk num) else none
  | none => none

/-- Source `try_to_convert_to_numeric` (lines 82-99). -/
def try_to_convert_to_numeric (value : String) : Value :=
  if is_integer (replace_all_non_ASCII value) then
    Value.intV (pyIntVal (replace_all_non_ASCII value))
  else if is_float (replace_all_non_ASCII value) then
    Value.floatV (replace_all_non_ASCII value)
  else
    match legendMatch (replace_all_non_ASCII value) with
    | some num => Value.strV num
    | none => Value.strV (replace_all_non_ASCII value)

/-- Does the first list occur anywhere inside the second one (Python `in`). -/
def listContainsSub (sub : List Char) : List Char → Bool
  | [] => sub.isEmpty
  | c :: rest => listStartsWith sub (c :: rest) || listContainsSub sub rest

/-- C6: `hasNonZeroDigits` is true exactly when the value is a non-zero
number or its string form contains a digit other than `'0'`; in particular it
is false on `0` and `"a0b"`, true on `"a1b"` and `5`. -/
theorem claim6_has_non_zero_digits :
    (∀ v : Value, has_non_zero_digits v = true ↔
      ((is_a_number v = true ∧ py_eq_zero v = false) ∨
        ∃ c ∈ (py_str v).toList, c.isDigit = true ∧ c ≠ '0')) ∧
    has_non_zero_digits (Value.intV 0) = false ∧
    has_non_zero_digits (Value.strV "a0b") = false ∧
    has_non_zero_digits (Value.strV "a1b") = true ∧
    has_non_zero_digits (Value.intV 5) = true := by
  refine ⟨?_, by decide, by decide, by decide, by decide⟩
  intro v
  simp [has_non_zero_digits, is_non_zero_numeric_value, List.any_eq_true,
    Bool.and_eq_true, Bool.not_eq_true']

/-- A row of the station inventory: the `Name`, `Station ID` and `Province`
columns consumed by `get_station_data`. -/
structure StationRow where
  name : String
  stationId : Nat
  province : String
deriving DecidableEq

/-- Source `NoLocationFoundError` (lines 134-135). -/
inductive NoLocationFoundError where
  | mk
deriving DecidableEq

/-- Python `str.upper()` for the ASCII names the scraper handles, written as
a character map so that the kernel evaluates it. -/
def str_upper (s : String) : String :=
  String.mk (s.toList.map Char.toUpper)

/-- The pandas query of source line 152: keep rows whose `Name` contains the
upper-cased city followed by a space, or equals the upper-cased city. The
pattern fed to `Name.str.contains` is treated as the literal text; the city
names in use carry no regex metacharacters. -/
def name_query_matches (city : String) (r : StationRow) : Bool :=
  listContainsSub (str_upper city ++ " ").toList r.name.toList || r.name == str_upper city

/-- The full pandas query of lines 152-156: the name filter, and when a
non-empty province is supplied, `Province == province.upper()` as well. -/
def station_query_matches (city province : String) (r : StationRow) : Bool :=
  name_query_matches city r && (province == "" || r.province == str_upper province)

/-- Source `get_station_data` (lines 146-165), with the inventory fetched by
`get_station_data_from_ftp` supplied as a parameter: filter the inventory by
the query and raise `NoLocationFoundError` when nothing is left. -/
def get_station_data (inventory : List StationRow) (city province : String) :
    Except NoLocationFoundError (List StationRow) :=
  if (inventory.filter (station_query_matches city province)).length ≤ 0 then
    Except.error NoLocationFoundError.mk
  else Except.ok (inventory.filter (station_query_matches city province))

theorem listStartsWith_iff (p l : List Char) :
    listStartsWith p l = true ↔ ∃ t, l = p ++ t := by
  induction p generalizing l with
  | nil => simp [listStartsWith]
  | cons a as ih =>
    cases l with
    | nil => simp [listStartsWith]
    | cons b bs =>
      simp only [listStartsWith, Bool.and_eq_true, beq_iff_eq, ih]
      constructor
      · rintro ⟨rfl, t, rfl⟩
        exact ⟨t, rfl⟩
      · rintro ⟨t, ht⟩
        obtain ⟨rfl, rfl⟩ : b = a ∧ bs = as ++ t := by
          simpa using ht
        exact ⟨rfl, t, rfl⟩

theorem listContainsSub_iff (sub l : List Char) :
    listContainsSub sub l = true ↔ ∃ pre post, l = pre ++ sub ++ post := by
  induction l with
  | nil =>
    simp only [listContainsSub, List.isEmpty_iff]
    constructor
    · rintro rfl
      exact ⟨[], [], rfl⟩
    · rintro ⟨pre, post, h⟩
      rcases List.append_eq_nil.mp h.symm with ⟨h1, -⟩
      exact (List.append_eq_nil.mp h1).2
  | cons c rest ih =>
    simp only [listContainsSub, Bool.or_eq_true, listStartsWith_iff, ih]
    constructor
    · rintro (⟨t, ht⟩ | ⟨pre, post, hp⟩)
      · exact ⟨[], t, by simpa using ht⟩
      · exact ⟨c :: pre, post, by simp [hp]⟩
    · rintro ⟨pre, post, hp⟩
      cases pre with
      | nil => exact Or.inl ⟨post, by simpa using hp⟩
      | cons p ps =>
        have h' : c = p ∧ rest = ps ++ sub ++ post := by simpa using hp
        exact Or.inr ⟨ps, post, h'.2⟩

theorem get_station_data_ok {inventory : List StationRow} {city province : String}
    {l : List StationRow} (hl : get_station_data inventory city province = Except.ok l) :
    l ≠ [] ∧ l = inventory.filter (station_query_matches city province) := by
  unfold get_station_data at hl
  split at hl
  · exact Except.noConfusion hl
  · next h =>
    injection hl with hl'
    subst hl'
    exact ⟨fun hnil => h (by simp [hnil]), rfl⟩

/-- C7: station resolution raises `NoLocationFoundError` exactly when the
filtered inventory is empty; with a matching city but a non-empty province
matching no row it raises too; on success the returned set is the non-empty
filtered inventory. -/
theorem claim7_no_location_found (inventory : List StationRow) (city province : String) :
    (get_station_data inventory city province = Except.error NoLocationFoundError.mk ↔
      inventory.filter (station_query_matches city province) = []) ∧
    (∀ l, get_station_data inventory city province = Except.ok l →
      l ≠ [] ∧ l = inventory.filter (station_query_matches city province)) ∧
    (province ≠ "" → (∀ r ∈ inventory, r.province ≠ str_upper province) →
      get_station_data inventory city province = Except.error NoLocationFoundError.mk) := by
  refine ⟨?_, ?_, ?_⟩
  · unfold get_station_data
    split
    · next h =>
      have hnil : inventory.filter (station_query_matches city province) = [] :=
        List.length_eq_zero.mp (Nat.le_zero.mp h)
      simp [hnil]
    · next h =>
      constructor
      · intro hl
        exact Except.noConfusion hl
      · intro hnil
        exact absurd (by simp [hnil]) h
  · intro l hl
    exact get_station_data_ok hl
  · intro hprov hnone
    unfold get_station_data
    have hfil : inventory.filter (station_query_matches city province) = [] := by
      refine List.filter_eq_nil_iff.mpr fun r hr => ?_
      simp only [station_query_matches, Bool.and_eq_true, Bool.or_eq_true, beq_iff_eq]
      rintro ⟨-, hp | hp⟩
      · exact hprov hp
      · exact hnone r hr hp
    rw [hfil]
    rfl

/-- C7 witness: a matching city name with a mismatched province raises. -/
theorem claim7_witness :
    get_station_data [⟨"TORONTO", 1, "ONTARIO"⟩] "Toronto" "Alberta" =
      Except.error NoLocationFoundError.mk :=
  (claim7_no_location_found [⟨"TORONTO", 1, "ONTARIO"⟩] "Toronto" "Alberta").2.2
    (by decide) (by decide)

/-- C2 counterexample: the name filter uses a substring search, so a station
whose `Name` merely contains the city name in the middle is also returned
(first conjunct), although its name neither starts with the city name nor
equals it (second and third conjuncts); moreover the equality test is not
case-insensitive: a mixed-case inventory name equal to the city up to case is
not returned (last conjunct). -/
theorem claim2_counterexample :
    get_station_data [⟨"EAST TORONTO A", 1, "ONTARIO"⟩] "Toronto" "" =
        Except.ok [⟨"EAST TORONTO A", 1, "ONTARIO"⟩] ∧
      listStartsWith (str_upper "Toronto").toList "EAST TORONTO A".toList = false ∧
      str_upper "EAST TORONTO A" ≠ str_upper "Toronto" ∧
      get_station_data [⟨"Toronto", 1, "ONTARIO"⟩] "toronto" "" =
        Except.error NoLocationFoundError.mk := by
  refine ⟨by rfl, by decide, by decide, by rfl⟩

/-- C2 as amended: with no province filter, the rows returned by station
resolution are exactly the inventory rows whose `Name` equals the upper-cased
city, or contains the upper-cased city followed by a space anywhere in the
name (not only at its start, and the comparison is against the upper-cased
city rather than case-insensitive). -/
theorem claim2_station_name_filter (inventory : List StationRow) (city : String)
    (l : List StationRow) (h : get_station_data inventory city "" = Except.ok l) :
    ∀ r, r ∈ l ↔ r ∈ inventory ∧
      (r.name = str_upper city ∨
        ∃ pre post, r.name.toList = pre ++ (str_upper city ++ " ").toList ++ post) := by
  intro r
  have hl : l = inventory.filter (station_query_matches city "") := (get_station_data_ok h).2
  subst hl
  simp only [List.mem_filter, station_query_matches, name_query_matches,
    Bool.and_eq_true, Bool.or_eq_true, beq_iff_eq, beq_self_eq_true, true_or,
    and_true, listContainsSub_iff]
  constructor
  · rintro ⟨hr, hc | he⟩
    · exact ⟨hr, Or.inr hc⟩
    · exact ⟨hr, Or.inl he⟩
  · rintro ⟨hr, he | hc⟩
    · exact ⟨hr, Or.inr he⟩
    · exact ⟨hr, Or.inl hc⟩

/-- C2 witness: the amended filter evaluated on a suffixed station name. -/
theorem claim2_witness :
    (⟨"TORONTO CITY", 2, "ONTARIO"⟩ : StationRow) ∈ [(⟨"TORONTO CITY", 2, "ONTARIO"⟩ : StationRow)] ↔
      (⟨"TORONTO CITY", 2, "ONTARIO"⟩ : StationRow) ∈ [(⟨"TORONTO CITY", 2, "ONTARIO"⟩ : StationRow)] ∧
      ((⟨"TORONTO CITY", 2, "ONTARIO"⟩ : StationRow).name = str_upper "Toronto" ∨
        ∃ pre post, (⟨"TORONTO CITY", 2, "ONTARIO"⟩ : StationRow).name.toList =
          pre ++ (str_upper "Toronto" ++ " ").toList ++ post) :=
  claim2_station_name_filter [⟨"TORONTO CITY", 2, "ONTARIO"⟩] "Toronto"
    [⟨"TORONTO CITY", 2, "ONTARIO"⟩] (by rfl) ⟨"TORONTO CITY", 2, "ONTARIO"⟩

/-- Lookup in an association list, the membership/read side of a Python
`dict` whose insertion order is the list order. -/
def assocLookup {α β : Type} [DecidableEq α] : List (α × β) → α → Option β
  | [], _ => none
  | (a, b) :: rest, k => if a = k then some b else assocLookup rest k

/-- Python `d[k] = v`: replace the value in place when the key is present,
append otherwise (insertion order preserved). -/
def dictSet {α β : Type} [DecidableEq α] : List (α × β) → α → β → List (α × β)
  | [], k, v => [(k, v)]
  | (a, b) :: rest, k, v => if a = k then (a, v) :: rest else (a, b) :: dictSet rest k v

theorem assocLookup_dictSet_self {α β : Type} [DecidableEq α]
    (m : List (α × β)) (k : α) (v : β) : assocLookup (dictSet m k v) k = some v := by
  induction m with
  | nil => simp [dictSet, assocLookup]
  | cons p rest ih =>
    obtain ⟨a, b⟩ := p
    by_cases hak : a = k
    · simp [dictSet, assocLookup, hak]
    · simp [dictSet, assocLookup, hak, ih]

theorem mem_dictSet {α β : Type} [DecidableEq α] {m : List (α × β)} {k : α} {v : β}
    {x : α × β} (hx : x ∈ dictSet m k v) : x ∈ m ∨ x = (k, v) := by
  induction m with
  | nil => simpa [dictSet] using hx
  | cons p rest ih =>
    obtain ⟨a, b⟩ := p
    by_cases hak : a = k
    · rcases by simpa [dictSet, hak] using hx with h | h
      · exact Or.inr (by simp [h, hak])
      · exact Or.inl (List.mem_cons_of_mem _ h)
    · rcases by simpa [dictSet, hak] using hx with h | h
      · exact Or.inl (by simp [h])
      · rcases ih h with h' | h'
        · exact Or.inl (List.mem_cons_of_mem _ h')
        · exact Or.inr h'

theorem mem_keys_dictSet {α β : Type} [DecidableEq α] {m : List (α × β)} {k : α} {v : β}
    {a : α} (ha : a ∈ (dictSet m k v).map Prod.fst) : a ∈ m.map Prod.fst ∨ a = k := by
  rcases List.mem_map.mp ha with ⟨x, hx, rfl⟩
  rcases mem_dictSet hx with h | h
  · exact Or.inl (List.mem_map_of_mem _ h)
  · exact Or.inr (by rw [h])

theorem keysNodup_dictSet {α β : Type} [DecidableEq α] {m : List (α × β)} {k : α} {v : β}
    (h : (m.map Prod.fst).Nodup) : ((dictSet m k v).map Prod.fst).Nodup := by
  induction m with
  | nil => simp [dictSet]
  | cons p rest ih =>
    obtain ⟨a, b⟩ := p
    simp only [List.map_cons, List.nodup_cons] at h
    by_cases hak : a = k
    · simpa [dictSet, hak, List.nodup_cons] using h
    · simp only [dictSet, if_neg hak, List.map_cons, List.nodup_cons]
      refine ⟨fun hmem => ?_, ih h.2⟩
      rcases mem_keys_dictSet hmem with h' | h'
      · exact h.1 h'
      · exact hak h'

/-- A key of the scraped-data dict: the `(station_name, station_id, year,
month, day)` tuple of all-station mode, or the `(year, month, day)` tuple of
best-station mode. -/
inductive Key where
  | allK (stationName : String) (stationId : Nat) (year month day : Nat) : Key
  | bestK (year month day : Nat) : Key
deriving DecidableEq

/-- The accumulating `climate_data_map`; records are positional field lists
mirroring the `ClimateData` named tuples. -/
abbrev ClimateMap := List (Key × List Value)

/-- Richness of a record (spec glossary): the number of its fields for which
`has_non_zero_digits` holds, i.e. `len([item for item in row_data if
has_non_zero_digits(item)])` of source lines 377-380. -/
def richness (record : List Value) : Nat :=
  (record.filter (fun item => has_non_zero_digits item)).length

/-- Best-station mode insertion, source lines 368-392: a new record for an
occupied `(year, month, day)` key replaces the stored one only when it has
strictly more fields with non-zero digits; a free key is simply filled. -/
def best_station_insert (mp : ClimateMap) (k : Key) (row_data : List Value) : ClimateMap :=
  match assocLookup mp k with
  | some current_climate_data =>
      if (current_climate_data.filter (fun item => has_non_zero_digits item)).length <
          (row_data.filter (fun item => has_non_zero_digits item)).length then
        dictSet mp k row_data
      else mp
  | none => dictSet mp k row_data

/-- C1: in best-station mode a record for a free date key is inserted, a
record for an occupied key replaces the stored record exactly when its
richness strictly exceeds the stored record's richness (so on a tie the
earlier-inserted record survives), and the map keeps at most one record per
key. -/
theorem claim1_best_station_reconciliation (m : ClimateMap) (k : Key) (rec : List Value) :
    (assocLookup m k = none → best_station_insert m k rec = dictSet m k rec) ∧
    (assocLookup m k = none → assocLookup (best_station_insert m k rec) k = some rec) ∧
    (∀ cur, assocLookup m k = some cur →
      best_station_insert m k rec =
        if richness cur < richness rec then dictSet m k rec else m) ∧
    ((m.map Prod.fst).Nodup → ((best_station_insert m k rec).map Prod.fst).Nodup) := by
  refine ⟨?_, ?_, ?_, ?_⟩
  · intro h
    unfold best_station_insert
    rw [h]
  · intro h
    unfold best_station_insert
    rw [h]
    exact assocLookup_dictSet_self m k rec
  · intro cur h
    unfold best_station_insert
    rw [h]
    rfl
  · intro h
    unfold best_station_insert
    cases hV : assocLookup m k with
    | none => exact keysNodup_dictSet h
    | some cur =>
      dsimp only
      by_cases hlt : (cur.filter (fun item => has_non_zero_digits item)).length <
          (rec.filter (fun item => has_non_zero_digits item)).length
      · rw [if_pos hlt]
        exact keysNodup_dictSet h
      · rw [if_neg hlt]
        exact h

/-- C1 witness: a tie in richness keeps the earlier-inserted record. -/
theorem claim1_witness :
    best_station_insert [(Key.bestK 2019 3 1, [Value.intV 1])] (Key.bestK 2019 3 1)
        [Value.intV 2] =
      (if richness [Value.intV 1] < richness [Value.intV 2] then
        dictSet [(Key.bestK 2019 3 1, [Value.intV 1])] (Key.bestK 2019 3 1) [Value.intV 2]
      else [(Key.bestK 2019 3 1, [Value.intV 1])]) :=
  (claim1_best_station_reconciliation [(Key.bestK 2019 3 1, [Value.intV 1])]
    (Key.bestK 2019 3 1) [Value.intV 2]).2.2.1 [Value.intV 1] (by rfl)

/-- A `tr` element of the report table: whether it contains any `th`
header/summary cell (`findChildren('th')` non-empty) and the texts of its
`td` cells. -/
structure HtmlRow where
  hasHeaderCell : Bool
  cells : List String
deriving DecidableEq

/-- A `caption` element together with the rows (`find_all('tr')`) of its
parent table. -/
structure CaptionBlock where
  captionText : String
  rows : List HtmlRow
deriving DecidableEq

/-- A fetched HTML document, reduced to its caption elements in document
order; this is what the parsing in `get_climate_data_map` consumes. -/
structure Document where
  captions : List CaptionBlock
deriving DecidableEq

/-- Source `month_name_map` (line 47): month number to full month name,
index 0 being the empty string of `calendar.month_name`. -/
def month_name_map (month : Nat) : String :=
  ["", "January", "February", "March", "April", "May", "June", "July",
    "August", "September", "October", "November", "December"].getD month ""

/-- The expected page caption built at source line 241. -/
def caption_text (year month : Nat) : String :=
  "Daily Data Report for " ++ month_name_map month ++ " " ++ toString year

/-- Source `province_map` (lines 51-65). -/
def province_map : List (String × String) :=
  [("ALBERTA", "AB"), ("BRITISH COLUMBIA", "BC"), ("MANITOBA", "MB"),
   ("NEW BRUNSWICK", "NB"), ("NEWFOUNDLAND AND LABRADOR", "NL"),
   ("NORTHWEST TERRITORIES", "NT"), ("NOVA SCOTIA", "NS"), ("NUNAVUT", "NT"),
   ("ONTARIO", "ON"), ("PRINCE EDWARD ISLAND", "PE"), ("QUEBEC", "QC"),
   ("SASKATCHEWAN", "SK"), ("YUKON", "YT")]

/-- Lookup of `province_map[...]` (a `KeyError` on an unknown province name
is out of the modelled runs). -/
def province_code (province : String) : String :=
  (assocLookup province_map province).getD ""

/-- The daily-data URL after the four placeholder substitutions of source
lines 215-220 into `get_gc_ca_daily_data_url()`. -/
def daily_data_url (station_id : Nat) (prov_code : String) (year month : Nat) : String :=
  "http://climate.weather.gc.ca/climate_data/daily_data_e.html?&StationID=" ++
    toString station_id ++ "&Prov=" ++ prov_code ++ "&Month=" ++ toString month ++
    "&Year=" ++ toString year

/-- Value of `int(re.findall(r'\d+', text)[0])` when some digit run exists:
the first maximal run of digits anywhere in the text; `none` when
`re.findall` returns the empty list. -/
def firstDigitRun : List Char → Option Nat
  | [] => none
  | c :: rest =>
      if c.isDigit then some (digitsToNat (c :: rest.takeWhile Char.isDigit))
      else firstDigitRun rest

/-- Processing of one table row, source lines 311-362: read the `td` texts,
take the first digit run of the leading cell as the day (skipping the row if
there is none), coerce the cells, and assemble the positional record
`[city, province, station_id, station_name, year, month, cells..., url]`
(station id and name are `0` and `''` outside all-station mode). The
`year`/`month` integers inserted before coercion are left intact by
`try_to_convert_to_numeric`, so they appear directly as `intV`. -/
def processRow (fetch_all_station_data : Bool) (city : String) (row : StationRow)
    (year month : Nat) (url : String) (tr : HtmlRow) : Option (Nat × List Value) :=
  match firstDigitRun (tr.cells.headD "").toList with
  | none => none
  | some day =>
      some (day,
        (if fetch_all_station_data then
          [Value.strV city, Value.strV row.province, Value.intV (row.stationId : Int), Value.strV row.name]
        else
          [Value.strV city, Value.strV row.province, Value.intV 0, Value.strV ""]) ++
        (Value.intV (year : Int) :: Value.intV (month : Int) ::
          (tr.cells.map try_to_convert_to_numeric ++ [Value.strV url])))

/-- Row selection and extraction for one matched table, source lines
303-362: drop the first two `tr` elements, drop every row containing a
header/summary cell, and process the remaining rows. -/
def extractTableRecords (fetch_all_station_data : Bool) (city : String) (row : StationRow)
    (year month : Nat) (url : String) (rows : List HtmlRow) : List (Nat × List Value) :=
  ((rows.drop 2).filter (fun tr => !tr.hasHeaderCell)).filterMap
    (processRow fetch_all_station_data city row year month url)

/-- Caption scan of source lines 245-250: every caption whose text contains
the expected caption text has its parent table extracted, in document
order. -/
def processDocument (fetch_all_station_data : Bool) (city : String) (row : StationRow)
    (year month : Nat) (url : String) (doc : Document) : List (Nat × List Value) :=
  (doc.captions.filter
    (fun cb => listContainsSub (caption_text year month).toList cb.captionText.toList)).flatMap
    (fun cb => extractTableRecords fetch_all_station_data city row year month url cb.rows)

/-- Insertion of one extracted record into the map: unconditional `dict` set
under the five-part key in all-station mode (line 353), reconciliation under
the date key in best-station mode (lines 368-392). -/
def insertOne (fetch_all_station_data : Bool) (row : StationRow) (year month : Nat)
    (mp : ClimateMap) (e : Nat × List Value) : ClimateMap :=
  if fetch_all_station_data then
    dictSet mp (Key.allK row.name row.stationId year month e.1) e.2
  else
    best_station_insert mp (Key.bestK year month e.1) e.2

/-- One station visit for a given year/month: fetch the document through the
oracle, extract its records and fold them into the map. -/
def stationStep (fetch_all_station_data : Bool) (city : String)
    (fetchDoc : StationRow → Nat → Nat → Document) (year month : Nat)
    (acc : ClimateMap) (row : StationRow) : ClimateMap :=
  (processDocument fetch_all_station_data city row year month
      (daily_data_url row.stationId (province_code row.province) year month)
      (fetchDoc row year month)).foldl
    (insertOne fetch_all_station_data row year month) acc

/-- The station loop of source line 210 for one month. -/
def monthStep (station_data : List StationRow) (fetch_all_station_data : Bool)
    (city : String) (fetchDoc : StationRow → Nat → Nat → Document) (year : Nat)
    (acc : ClimateMap) (month : Nat) : ClimateMap :=
  station_data.foldl (stationStep fetch_all_station_data city fetchDoc year month) acc

/-- The years visited: `range(start_year, end_year + 1)`. -/
def yearsList (start_year end_year : Nat) : List Nat :=
  List.range' start_year (end_year + 1 - start_year)

/-- The months visited in a year, source line 207:
`range(start_month if year == start_year else 1,
       end_month + 1 if year == end_year else 13)`. -/
def monthsList (start_year start_month end_year end_month year : Nat) : List Nat :=
  List.range' (if year = start_year then start_month else 1)
    ((if year = end_year then end_month + 1 else 13) -
      (if year = start_year then start_month else 1))

/-- The month loop of source line 207 for one year. -/
def yearStep (station_data : List StationRow) (start_year start_month end_year end_month : Nat)
    (fetch_all_station_data : Bool) (city : String)
    (fetchDoc : StationRow → Nat → Nat → Document) (acc : ClimateMap) (year : Nat) : ClimateMap :=
  (monthsList start_year start_month end_year end_month year).foldl
    (monthStep station_data fetch_all_station_data city fetchDoc year) acc

/-- The triple loop of `get_climate_data_map` (source lines 202-394) run on
an already-resolved station list, starting from the empty map. -/
def build_climate_data_map (station_data : List StationRow)
    (start_year start_month end_year end_month : Nat) (fetch_all_station_data : Bool)
    (fetchDoc : StationRow → Nat → Nat → Document) (city : String) : ClimateMap :=
  (yearsList start_year end_year).foldl
    (yearStep station_data start_year start_month end_year end_month
      fetch_all_station_data city fetchDoc) []

/-- Source `get_climate_data_map` (lines 188-394), with the station
inventory and the HTTP fetch supplied as parameters: resolve the stations
(propagating `NoLocationFoundError`) and run the scraping loop. -/
def get_climate_data_map (inventory : List StationRow) (city province : String)
    (start_year start_month end_year end_month : Nat) (fetch_all_station_data : Bool)
    (fetchDoc : StationRow → Nat → Nat → Document) :
    Except NoLocationFoundError ClimateMap :=
  match get_station_data inventory city province with
  | Except.error e => Except.error e
  | Except.ok station_data =>
      Except.ok (build_climate_data_map station_data start_year start_month end_year
        end_month fetch_all_station_data fetchDoc city)

theorem takeWhile_all {α : Type} (p : α → Bool) (l : List α) :
    (l.takeWhile p).all p = true := by
  induction l with
  | nil => rfl
  | cons a rest ih =>
    rw [List.takeWhile_cons]
    by_cases hp : p a
    · simp [hp, ih]
    · simp [hp]

theorem dropWhile_head_false {α : Type} (p : α → Bool) :
    ∀ (l : List α) (c : α) (t : List α), l.dropWhile p = c :: t → p c = false := by
  intro l
  induction l with
  | nil => intro c t h; simp [List.dropWhile] at h
  | cons a rest ih =>
    intro c t h
    rw [List.dropWhile_cons] at h
    by_cases hp : p a
    · rw [if_pos hp] at h
      exact ih c t h
    · rw [if_neg hp] at h
      obtain ⟨rfl, -⟩ : a = c ∧ rest = t := by simpa using h
      simpa using hp

theorem firstDigitRun_eq_none_iff (l : List Char) :
    firstDigitRun l = none ↔ ∀ c ∈ l, c.isDigit = false := by
  induction l with
  | nil => simp [firstDigitRun]
  | cons c rest ih =>
    by_cases hc : c.isDigit
    · simp [firstDigitRun, hc]
    · simp [firstDigitRun, hc, ih, List.forall_mem_cons]

theorem firstDigitRun_eq_some (l : List Char) (d : Nat) (h : firstDigitRun l = some d) :
    ∃ pre run post, l = pre ++ run ++ post ∧ (∀ c ∈ pre, c.isDigit = false) ∧
      run ≠ [] ∧ run.all Char.isDigit = true ∧
      (∀ c t, post = c :: t → c.isDigit = false) ∧ d = digitsToNat run := by
  induction l with
  | nil => simp [firstDigitRun] at h
  | cons c rest ih =>
    by_cases hc : c.isDigit
    · rw [firstDigitRun, if_pos hc] at h
      obtain rfl : digitsToNat (c :: rest.takeWhile Char.isDigit) = d := by simpa using h
      refine ⟨[], c :: rest.takeWhile Char.isDigit, rest.dropWhile Char.isDigit,
        ?_, by simp, by simp, ?_, ?_, rfl⟩
      · simp [List.takeWhile_append_dropWhile]
      · simp [List.all_cons, hc, takeWhile_all]
      · exact fun ch t ht => dropWhile_head_false Char.isDigit rest ch t ht
    · rw [firstDigitRun, if_neg hc] at h
      obtain ⟨pre, run, post, hl, hpre, hne, hall, hpost, hd⟩ := ih h
      refine ⟨c :: pre, run, post, by simp [hl], ?_, hne, hall, hpost, hd⟩
      intro ch hch
      rcases List.mem_cons.mp hch with rfl | hch'
      · simpa using hc
      · exact hpre ch hch'

theorem firstDigitRun_some_has_digit (l : List Char) (d : Nat)
    (h : firstDigitRun l = some d) : ∃ c ∈ l, c.isDigit = true := by
  obtain ⟨pre, run, post, hl, -, hne, hall, -, -⟩ := firstDigitRun_eq_some l d h
  cases run with
  | nil => exact absurd rfl hne
  | cons r rs =>
    simp only [List.all_cons, Bool.and_eq_true] at hall
    refine ⟨r, ?_, hall.1⟩
    rw [hl]
    simp

theorem mem_extractTableRecords {f : Bool} {city : String} {row : StationRow}
    {year month : Nat} {url : String} {rows : List HtmlRow} {e : Nat × List Value} :
    e ∈ extractTableRecords f city row year month url rows ↔
      ∃ tr, tr ∈ rows.drop 2 ∧ tr.hasHeaderCell = false ∧
        processRow f city row year month url tr = some e := by
  unfold extractTableRecords
  simp only [List.mem_filterMap, List.mem_filter, Bool.not_eq_true']
  constructor
  · rintro ⟨tr, ⟨h1, h2⟩, h3⟩
    exact ⟨tr, h1, h2, h3⟩
  · rintro ⟨tr, h1, h2, h3⟩
    exact ⟨tr, ⟨h1, h2⟩, h3⟩

theorem mem_processDocument {f : Bool} {city : String} {row : StationRow}
    {year month : Nat} {url : String} {doc : Document} {e : Nat × List Value} :
    e ∈ processDocument f city row year month url doc ↔
      ∃ cb, cb ∈ doc.captions ∧
        listContainsSub (caption_text year month).toList cb.captionText.toList = true ∧
        e ∈ extractTableRecords f city row year month url cb.rows := by
  unfold processDocument
  simp only [List.mem_flatMap, List.mem_filter]
  constructor
  · rintro ⟨cb, ⟨h1, h2⟩, h3⟩
    exact ⟨cb, h1, h2, h3⟩
  · rintro ⟨cb, h1, h2, h3⟩
    exact ⟨cb, ⟨h1, h2⟩, h3⟩

/-- C3 counterexample: a data row whose first cell `"x7"` does not begin
with a digit is not skipped; the extractor keeps it and takes `7`, the first
digit run found anywhere in the cell, as the day. Under the claim the
extraction would be empty. -/
theorem claim3_counterexample :
    extractTableRecords true "Toronto" ⟨"STN", 7, "ONTARIO"⟩ 2019 3 "u"
        [⟨true, []⟩, ⟨true, []⟩, ⟨false, ["x7"]⟩] =
      [(7, [Value.strV "Toronto", Value.strV "ONTARIO", Value.intV 7, Value.strV "STN",
            Value.intV 2019, Value.intV 3, Value.strV "x7", Value.strV "u"])] ∧
    ("x7".toList.headD ' ').isDigit = false := by
  exact ⟨by rfl, by decide⟩

/-- C3 as amended: extraction drops the first two rows and every row with a
header/summary cell; a remaining row is skipped exactly when its first cell
contains no digit at all, and otherwise the day is the value of the first
maximal digit run appearing anywhere in the first cell (not necessarily at
its start). -/
theorem claim3_row_extraction (f : Bool) (city : String) (row : StationRow)
    (year month : Nat) (url : String) (rows : List HtmlRow) :
    (∀ e, e ∈ extractTableRecords f city row year month url rows ↔
        ∃ tr, tr ∈ rows.drop 2 ∧ tr.hasHeaderCell = false ∧
          processRow f city row year month url tr = some e) ∧
    (∀ tr : HtmlRow, (∀ ch ∈ (tr.cells.headD "").toList, ch.isDigit = false) →
        processRow f city row year month url tr = none) ∧
    (∀ (tr : HtmlRow) (d : Nat) (rec : List Value),
        processRow f city row year month url tr = some (d, rec) →
        ∃ pre run post, (tr.cells.headD "").toList = pre ++ run ++ post ∧
          (∀ ch ∈ pre, ch.isDigit = false) ∧ run ≠ [] ∧ run.all Char.isDigit = true ∧
          (∀ ch t, post = ch :: t → ch.isDigit = false) ∧ d = digitsToNat run) := by
  refine ⟨fun e => mem_extractTableRecords, ?_, ?_⟩
  · intro tr hnd
    unfold processRow
    rw [(firstDigitRun_eq_none_iff _).mpr hnd]
  · intro tr d rec h
    unfold processRow at h
    cases hF : firstDigitRun (tr.cells.headD "").toList with
    | none =>
      rw [hF] at h
      exact absurd h (by simp)
    | some day =>
      rw [hF] at h
      have hd : day = d := congrArg Prod.fst (Option.some.inj h)
      subst hd
      exact firstDigitRun_eq_some _ _ hF

/-- C3 witness: the day decomposition applied to the row with cell `"x7"`. -/
theorem claim3_witness :
    ∃ pre run post,
      ((⟨false, ["x7"]⟩ : HtmlRow).cells.headD "").toList = pre ++ run ++ post ∧
      (∀ ch ∈ pre, ch.isDigit = false) ∧ run ≠ [] ∧ run.all Char.isDigit = true ∧
      (∀ ch t, post = ch :: t → ch.isDigit = false) ∧ 7 = digitsToNat run :=
  (claim3_row_extraction true "Toronto" ⟨"STN", 7, "ONTARIO"⟩ 2019 3 "u" []).2.2
    ⟨false, ["x7"]⟩ 7
    [Value.strV "Toronto", Value.strV "ONTARIO", Value.intV 7, Value.strV "STN",
      Value.intV 2019, Value.intV 3, Value.strV "x7", Value.strV "u"] (by rfl)

/-- C4 counterexample: a document with two captions both containing the
expected caption text contributes the rows of both tables (days `1` and
`2`), not only those of the first matching caption as the claim states. -/
theorem claim4_counterexample :
    (processDocument true "Toronto" ⟨"STN", 7, "ONTARIO"⟩ 2019 3 "u"
        ⟨[⟨"Daily Data Report for March 2019", [⟨true, []⟩, ⟨true, []⟩, ⟨false, ["1"]⟩]⟩,
          ⟨"Daily Data Report for March 2019", [⟨true, []⟩, ⟨true, []⟩, ⟨false, ["2"]⟩]⟩]⟩).map
        Prod.fst = [1, 2] := by
  rfl

/-- C4 as amended: every caption element (not only the first) whose text
contains the expected caption string `"Daily Data Report for <month name>
<year>"` is used for extraction; if no caption matches, the fetch
contributes zero rows without raising, and the run continues. -/
theorem claim4_caption_scan (f : Bool) (city : String) (row : StationRow)
    (year month : Nat) (url : String) (doc : Document) :
    ((∀ cb ∈ doc.captions,
        listContainsSub (caption_text year month).toList cb.captionText.toList = false) →
      processDocument f city row year month url doc = []) ∧
    (∀ e, e ∈ processDocument f city row year month url doc ↔
        ∃ cb, cb ∈ doc.captions ∧
          listContainsSub (caption_text year month).toList cb.captionText.toList = true ∧
          e ∈ extractTableRecords f city row year month url cb.rows) := by
  constructor
  · intro h
    unfold processDocument
    have hfil : doc.captions.filter
        (fun cb => listContainsSub (caption_text year month).toList cb.captionText.toList) = [] :=
      List.filter_eq_nil_iff.mpr (fun cb hcb => by simpa [String.toList] using h cb hcb)
    rw [hfil]
    rfl
  · intro e
    exact mem_processDocument

/-- C4 witness: a document whose single caption does not match contributes
nothing. -/
theorem claim4_witness :
    processDocument true "Toronto" ⟨"STN", 7, "ONTARIO"⟩ 2019 3 "u" ⟨[⟨"Nope", []⟩]⟩ = [] :=
  (claim4_caption_scan true "Toronto" ⟨"STN", 7, "ONTARIO"⟩ 2019 3 "u" ⟨[⟨"Nope", []⟩]⟩).1
    (by decide)

theorem mem_foldl_step {β : Type} (f : ClimateMap → β → ClimateMap)
    (P : β → Key × List Value → Prop)
    (hf : ∀ acc b x, x ∈ f acc b → x ∈ acc ∨ P b x) :
    ∀ (l : List β) (acc : ClimateMap) (x : Key × List Value),
      x ∈ l.foldl f acc → x ∈ acc ∨ ∃ b ∈ l, P b x := by
  intro l
  induction l with
  | nil =>
    intro acc x hx
    exact Or.inl hx
  | cons b t ih =>
    intro acc x hx
    rw [List.foldl_cons] at hx
    rcases ih (f acc b) x hx with h | ⟨b', hb', hP⟩
    · rcases hf acc b x h with h' | h'
      · exact Or.inl h'
      · exact Or.inr ⟨b, List.mem_cons_self _ _, h'⟩
    · exact Or.inr ⟨b', List.mem_cons_of_mem _ hb', hP⟩

theorem mem_best_station_insert {mp : ClimateMap} {k : Key} {rec : List Value}
    {x : Key × List Value} (hx : x ∈ best_station_insert mp k rec) :
    x ∈ mp ∨ x = (k, rec) := by
  unfold best_station_insert at hx
  cases hV : assocLookup mp k with
  | none =>
    rw [hV] at hx
    exact mem_dictSet hx
  | some cur =>
    rw [hV] at hx
    dsimp only at hx
    by_cases hlt : (cur.filter (fun item => has_non_zero_digits item)).length <
        (rec.filter (fun item => has_non_zero_digits item)).length
    · rw [if_pos hlt] at hx
      exact mem_dictSet hx
    · rw [if_neg hlt] at hx
      exact Or.inl hx

theorem mem_insertOne {fa : Bool} {row : StationRow} {year month : Nat} {mp : ClimateMap}
    {e : Nat × List Value} {x : Key × List Value}
    (hx : x ∈ insertOne fa row year month mp e) :
    x ∈ mp ∨ x = ((if fa then Key.allK row.name row.stationId year month e.1
                   else Key.bestK year month e.1), e.2) := by
  cases fa with
  | true =>
    simp only [insertOne, if_true] at hx ⊢
    exact mem_dictSet hx
  | false =>
    simp only [insertOne, Bool.false_eq_true, if_false] at hx ⊢
    exact mem_best_station_insert hx

theorem mem_stationStep {fa : Bool} {city : String}
    {fetchDoc : StationRow → Nat → Nat → Document} {year month : Nat}
    {acc : ClimateMap} {row : StationRow} {x : Key × List Value}
    (hx : x ∈ stationStep fa city fetchDoc year month acc row) :
    x ∈ acc ∨ ∃ e ∈ processDocument fa city row year month
        (daily_data_url row.stationId (province_code row.province) year month)
        (fetchDoc row year month),
      x = ((if fa then Key.allK row.name row.stationId year month e.1
            else Key.bestK year month e.1), e.2) := by
  unfold stationStep at hx
  exact mem_foldl_step (insertOne fa row year month)
    (fun e x => x = ((if fa then Key.allK row.name row.stationId year month e.1
      else Key.bestK year month e.1), e.2))
    (fun acc' e x h => mem_insertOne h) _ acc x hx

theorem mem_monthStep {station_data : List StationRow} {fa : Bool} {city : String}
    {fetchDoc : StationRow → Nat → Nat → Document} {year : Nat}
    {acc : ClimateMap} {month : Nat} {x : Key × List Value}
    (hx : x ∈ monthStep station_data fa city fetchDoc year acc month) :
    x ∈ acc ∨ ∃ row ∈ station_data, ∃ e ∈ processDocument fa city row year month
        (daily_data_url row.stationId (province_code row.province) year month)
        (fetchDoc row year month),
      x = ((if fa then Key.allK row.name row.stationId year month e.1
            else Key.bestK year month e.1), e.2) := by
  unfold monthStep at hx
  exact mem_foldl_step (stationStep fa city fetchDoc year month)
    (fun row x => ∃ e ∈ processDocument fa city row year month
        (daily_data_url row.stationId (province_code row.province) year month)
        (fetchDoc row year month),
      x = ((if fa then Key.allK row.name row.stationId year month e.1
            else Key.bestK year month e.1), e.2))
    (fun acc' row x h => mem_stationStep h) station_data acc x hx

theorem mem_build_climate_data_map {station_data : List StationRow}
    {start_year start_month end_year end_month : Nat} {fa : Bool}
    {fetchDoc : StationRow → Nat → Nat → Document} {city : String} {x : Key × List Value}
    (hx : x ∈ build_climate_data_map station_data start_year start_month end_year end_month
      fa fetchDoc city) :
    ∃ (year month : Nat) (row : StationRow) (e : Nat × List Value),
      row ∈ station_data ∧
      e ∈ processDocument fa city row year month
        (daily_data_url row.stationId (province_code row.province) year month)
        (fetchDoc row year month) ∧
      x = ((if fa then Key.allK row.name row.stationId year month e.1
            else Key.bestK year month e.1), e.2) := by
  unfold build_climate_data_map at hx
  have h := mem_foldl_step
    (yearStep station_data start_year start_month end_year end_month fa city fetchDoc)
    (fun year x => ∃ month ∈ monthsList start_year start_month end_year end_month year,
      ∃ row ∈ station_data, ∃ e ∈ processDocument fa city row year month
          (daily_data_url row.stationId (province_code row.province) year month)
          (fetchDoc row year month),
        x = ((if fa then Key.allK row.name row.stationId year month e.1
              else Key.bestK year month e.1), e.2))
    (fun acc' year x h => by
      rcases mem_foldl_step (monthStep station_data fa city fetchDoc year)
        (fun month x => ∃ row ∈ station_data, ∃ e ∈ processDocument fa city row year month
            (daily_data_url row.stationId (province_code row.province) year month)
            (fetchDoc row year month),
          x = ((if fa then Key.allK row.name row.stationId year month e.1
                else Key.bestK year month e.1), e.2))
        (fun acc'' month x h' => mem_monthStep h') _ acc' x h with h' | h'
      · exact Or.inl h'
      · exact Or.inr h')
    (yearsList start_year end_year) [] x hx
  rcases h with h | ⟨year, -, month, -, row, hrow, e, he, hkey⟩
  · exact absurd h (List.not_mem_nil x)
  · exact ⟨year, month, row, e, hrow, he, hkey⟩

theorem processRow_some_structure {fa : Bool} {city : String} {row : StationRow}
    {year month : Nat} {url : String} {tr : HtmlRow} {day : Nat} {rec : List Value}
    (h : processRow fa city row year month url tr = some (day, rec)) :
    ∃ cell restCells, tr.cells = cell :: restCells ∧
      firstDigitRun cell.toList = some day ∧
      rec = (if fa then [Value.strV city, Value.strV row.province,
                Value.intV (row.stationId : Int), Value.strV row.name]
             else [Value.strV city, Value.strV row.province, Value.intV 0, Value.strV ""]) ++
        (Value.intV (year : Int) :: Value.intV (month : Int) ::
          ((cell :: restCells).map try_to_convert_to_numeric ++ [Value.strV url])) := by
  unfold processRow at h
  cases hF : firstDigitRun (tr.cells.headD "").toList with
  | none =>
    rw [hF] at h
    exact absurd h (by simp)
  | some d0 =>
    rw [hF] at h
    have hinj := Option.some.inj h
    have hd : d0 = day := congrArg Prod.fst hinj
    have hr := congrArg Prod.snd hinj
    cases hc : tr.cells with
    | nil =>
      rw [hc] at hF
      simp [firstDigitRun] at hF
    | cons cell restCells =>
      rw [hc] at hF
      refine ⟨cell, restCells, rfl, by simpa using hd ▸ hF, ?_⟩
      rw [hc] at hr
      exact hr.symm

/-- C8 counterexample: a run over a table row whose first cell is
`"99LegendM"` produces a record whose date key carries day `99` (not a valid
day of month, no validation is performed) and whose `day` field is the
string `"99"` produced by the Legend fallback of the coercion, not an
integer. -/
theorem claim8_counterexample :
    get_climate_data_map [⟨"TORONTO", 7, "ONTARIO"⟩] "Toronto" "" 2019 3 2019 3 false
        (fun _ _ _ => ⟨[⟨"Daily Data Report for March 2019",
          [⟨true, []⟩, ⟨true, []⟩, ⟨false, ["99LegendM"]⟩]⟩]⟩) =
      Except.ok [(Key.bestK 2019 3 99,
        [Value.strV "Toronto", Value.strV "ONTARIO", Value.intV 0, Value.strV "",
          Value.intV 2019, Value.intV 3, Value.strV "99",
          Value.strV "http://climate.weather.gc.ca/climate_data/daily_data_e.html?&StationID=7&Prov=ON&Month=3&Year=2019"])] ∧
    (∀ n : Int, Value.strV "99" ≠ Value.intV n) := by
  exact ⟨by rfl, fun n => by simp⟩

/-- C8 as amended: every record of a successfully returned map originates
from a processed row: its `year` and `month` fields (positions 4 and 5) are
the integers of the visited year/month, which also form the key together
with the day taken as the first digit run of the row's leading cell; the
`day` field (position 6) is the coercion of that leading cell, which
contains at least one digit; neither the day key nor the day field is
validated against the calendar, and the field may be a non-integer value. -/
theorem claim8_record_fields (inventory : List StationRow) (city province : String)
    (start_year start_month end_year end_month : Nat) (fa : Bool)
    (fetchDoc : StationRow → Nat → Nat → Document) (mp : ClimateMap)
    (hok : get_climate_data_map inventory city province start_year start_month end_year
      end_month fa fetchDoc = Except.ok mp)
    (k : Key) (rec : List Value) (hmem : (k, rec) ∈ mp) :
    ∃ (year month day : Nat) (row : StationRow) (cell : String) (restCells : List String),
      firstDigitRun cell.toList = some day ∧
      (∃ ch ∈ cell.toList, ch.isDigit = true) ∧
      k = (if fa then Key.allK row.name row.stationId year month day
           else Key.bestK year month day) ∧
      rec = (if fa then [Value.strV city, Value.strV row.province,
                Value.intV (row.stationId : Int), Value.strV row.name]
             else [Value.strV city, Value.strV row.province, Value.intV 0, Value.strV ""]) ++
        (Value.intV (year : Int) :: Value.intV (month : Int) ::
          ((cell :: restCells).map try_to_convert_to_numeric ++
            [Value.strV (daily_data_url row.stationId (province_code row.province) year month)])) ∧
      rec[4]? = some (Value.intV (year : Int)) ∧
      rec[5]? = some (Value.intV (month : Int)) ∧
      rec[6]? = some (try_to_convert_to_numeric cell) := by
  unfold get_climate_data_map at hok
  cases hgs : get_station_data inventory city province with
  | error err =>
    rw [hgs] at hok
    exact Except.noConfusion hok
  | ok station_data =>
    rw [hgs] at hok
    injection hok with hok'
    subst hok'
    obtain ⟨year, month, row, e, -, he, hkey⟩ := mem_build_climate_data_map hmem
    obtain ⟨cb, -, -, hext⟩ := mem_processDocument.mp he
    obtain ⟨tr, -, -, hpr⟩ := mem_extractTableRecords.mp hext
    have hpr' : processRow fa city row year month
        (daily_data_url row.stationId (province_code row.province) year month) tr =
        some (e.1, e.2) := by
      rw [hpr]
    obtain ⟨cell, restCells, -, hF, hrec⟩ := processRow_some_structure hpr'
    have hk : k = (if fa then Key.allK row.name row.stationId year month e.1
        else Key.bestK year month e.1) := congrArg Prod.fst hkey
    have hr : rec = e.2 := congrArg Prod.snd hkey
    refine ⟨year, month, e.1, row, cell, restCells, hF,
      firstDigitRun_some_has_digit _ _ hF, hk, by rw [hr, hrec], ?_, ?_, ?_⟩
    · rw [hr, hrec]
      cases fa <;> simp
    · rw [hr, hrec]
      cases fa <;> simp
    · rw [hr, hrec]
      cases fa <;> simp

/-- C8 witness: the origin property applied to a concrete one-record run. -/
theorem claim8_witness :
    ∃ (year month day : Nat) (row : StationRow) (cell : String) (restCells : List String),
      firstDigitRun cell.toList = some day ∧
      (∃ ch ∈ cell.toList, ch.isDigit = true) ∧
      Key.bestK 2019 3 5 = (if false then Key.allK row.name row.stationId year month day
           else Key.bestK year month day) ∧
      [Value.strV "Toronto", Value.strV "ONTARIO", Value.intV 0, Value.strV "",
          Value.intV 2019, Value.intV 3, Value.intV 5,
          Value.strV "http://climate.weather.gc.ca/climate_data/daily_data_e.html?&StationID=7&Prov=ON&Month=3&Year=2019"] =
        (if false then [Value.strV "Toronto", Value.strV row.province,
              Value.intV (row.stationId : Int), Value.strV row.name]
           else [Value.strV "Toronto", Value.strV row.province, Value.intV 0, Value.strV ""]) ++
        (Value.intV (year : Int) :: Value.intV (month : Int) ::
          ((cell :: restCells).map try_to_convert_to_numeric ++
            [Value.strV (daily_data_url row.stationId (province_code row.province) year month)])) ∧
      ([Value.strV "Toronto", Value.strV "ONTARIO", Value.intV 0, Value.strV "",
          Value.intV 2019, Value.intV 3, Value.intV 5,
          Value.strV "http://climate.weather.gc.ca/climate_data/daily_data_e.html?&StationID=7&Prov=ON&Month=3&Year=2019"] :
          List Value)[4]? = some (Value.intV (year : Int)) ∧
      ([Value.strV "Toronto", Value.strV "ONTARIO", Value.intV 0, Value.strV "",
          Value.intV 2019, Value.intV 3, Value.intV 5,
          Value.strV "http://climate.weather.gc.ca/climate_data/daily_data_e.html?&StationID=7&Prov=ON&Month=3&Year=2019"] :
          List Value)[5]? = some (Value.intV (month : Int)) ∧
      ([Value.strV "Toronto", Value.strV "ONTARIO", Value.intV 0, Value.strV "",
          Value.intV 2019, Value.intV 3, Value.intV 5,
          Value.strV "http://climate.weather.gc.ca/climate_data/daily_data_e.html?&StationID=7&Prov=ON&Month=3&Year=2019"] :
          List Value)[6]? = some (try_to_convert_to_numeric cell) := by
  have h := claim8_record_fields [⟨"TORONTO", 7, "ONTARIO"⟩] "Toronto" "" 2019 3 2019 3 false
    (fun _ _ _ => ⟨[⟨"Daily Data Report for March 2019",
      [⟨true, []⟩, ⟨true, []⟩, ⟨false, ["5"]⟩]⟩]⟩)
    [(Key.bestK 2019 3 5,
      [Value.strV "Toronto", Value.strV "ONTARIO", Value.intV 0, Value.strV "",
        Value.intV 2019, Value.intV 3, Value.intV 5,
        Value.strV "http://climate.weather.gc.ca/climate_data/daily_data_e.html?&StationID=7&Prov=ON&Month=3&Year=2019"])]
    (by rfl) (Key.bestK 2019 3 5)
    [Value.strV "Toronto", Value.strV "ONTARIO", Value.intV 0, Value.strV "",
      Value.intV 2019, Value.intV 3, Value.intV 5,
      Value.strV "http://climate.weather.gc.ca/climate_data/daily_data_e.html?&StationID=7&Prov=ON&Month=3&Year=2019"]
    (List.mem_singleton.mpr rfl)
  exact h

theorem takeWhile_of_all {α : Type} (p : α → Bool) (l : List α) (h : l.all p = true) :
    l.takeWhile p = l := by
  induction l with
  | nil => rfl
  | cons a rest ih =>
    simp only [List.all_cons, Bool.and_eq_true] at h
    rw [List.takeWhile_cons, if_pos h.1, ih h.2]

theorem dropWhile_of_all {α : Type} (p : α → Bool) (l : List α) (h : l.all p = true) :
    l.dropWhile p = [] := by
  induction l with
  | nil => rfl
  | cons a rest ih =>
    simp only [List.all_cons, Bool.and_eq_true] at h
    rw [List.dropWhile_cons, if_pos h.1]
    exact ih h.2

theorem takeWhile_append_stop {α : Type} (p : α → Bool) (c : α) (b : List α)
    (hc : p c = false) :
    ∀ a : List α, a.all p = true →
      (a ++ c :: b).takeWhile p = a ∧ (a ++ c :: b).dropWhile p = c :: b := by
  intro a
  induction a with
  | nil =>
    intro _
    simp [List.takeWhile_cons, List.dropWhile_cons, hc]
  | cons x xs ih =>
    intro ha
    simp only [List.all_cons, Bool.and_eq_true] at ha
    obtain ⟨ht, hd⟩ := ih ha.2
    constructor
    · rw [List.cons_append, List.takeWhile_cons, if_pos ha.1, ht]
    · rw [List.cons_append, List.dropWhile_cons, if_pos ha.1, hd]

theorem l_eq_take_drop (p : Char → Bool) (l : List Char) :
    l = l.takeWhile p ++ l.dropWhile p :=
  (List.takeWhile_append_dropWhile _ _).symm

theorem numericShapeCore_dot (d1 d2 : List Char) (h1 : d1.all Char.isDigit = true)
    (h2 : d2.all Char.isDigit = true) (hne : d2.isEmpty = false) :
    numericShapeCore (d1 ++ '.' :: d2) = true := by
  unfold numericShapeCore
  obtain ⟨-, hd⟩ := takeWhile_append_stop Char.isDigit '.' d2 (by decide) d1 h1
  rw [hd]
  dsimp only
  simp [h2, hne]

theorem leadNumericCore_eq_some {l num rest : List Char}
    (h : leadNumericCore l = some (num, rest)) :
    l = num ++ rest ∧ numericShapeCore num = true := by
  have hld := l_eq_take_drop Char.isDigit l
  unfold leadNumericCore at h
  cases hdw : l.dropWhile Char.isDigit with
  | nil =>
    rw [hdw] at h hld
    by_cases he : (l.takeWhile Char.isDigit).isEmpty
    · rw [if_pos he] at h
      exact absurd h (by simp)
    · rw [if_neg he] at h
      have hinj := Option.some.inj h
      have h1 : l.takeWhile Char.isDigit = num := congrArg Prod.fst hinj
      have h2 : ([] : List Char) = rest := congrArg Prod.snd hinj
      subst h1
      subst h2
      refine ⟨hld, ?_⟩
      unfold numericShapeCore
      rw [dropWhile_of_all _ _ (takeWhile_all _ _)]
      dsimp only
      rw [takeWhile_of_all _ _ (takeWhile_all _ _)]
      simpa using he
  | cons c r2 =>
    rw [hdw] at h hld
    dsimp only at h
    by_cases hc : c = '.'
    · rw [if_pos hc] at h
      by_cases hd2 : (r2.takeWhile Char.isDigit).isEmpty
      · rw [if_pos hd2] at h
        by_cases hd1 : (l.takeWhile Char.isDigit).isEmpty
        · rw [if_pos hd1] at h
          exact absurd h (by simp)
        · rw [if_neg hd1] at h
          have hinj := Option.some.inj h
          have h1 : l.takeWhile Char.isDigit = num := congrArg Prod.fst hinj
          have h2 : c :: r2 = rest := congrArg Prod.snd hinj
          subst h1
          subst h2
          refine ⟨hld, ?_⟩
          unfold numericShapeCore
          rw [dropWhile_of_all _ _ (takeWhile_all _ _)]
          dsimp only
          rw [takeWhile_of_all _ _ (takeWhile_all _ _)]
          simpa using hd1
      · rw [if_neg hd2] at h
        have hinj := Option.some.inj h
        have h1 : l.takeWhile Char.isDigit ++ '.' :: r2.takeWhile Char.isDigit = num :=
          congrArg Prod.fst hinj
        have h2 : r2.dropWhile Char.isDigit = rest := congrArg Prod.snd hinj
        subst h1
        subst h2
        constructor
        · have hmid : ('.' :: r2.takeWhile Char.isDigit) ++ r2.dropWhile Char.isDigit =
              '.' :: r2 := by
            rw [List.cons_append, List.takeWhile_append_dropWhile]
          calc l = l.takeWhile Char.isDigit ++ c :: r2 := hld
            _ = l.takeWhile Char.isDigit ++ ('.' :: r2) := by rw [hc]
            _ = l.takeWhile Char.isDigit ++
                (('.' :: r2.takeWhile Char.isDigit) ++ r2.dropWhile Char.isDigit) := by
                  rw [hmid]
            _ = (l.takeWhile Char.isDigit ++ '.' :: r2.takeWhile Char.isDigit) ++
                r2.dropWhile Char.isDigit := by rw [← List.append_assoc]
        · exact numericShapeCore_dot _ _ (takeWhile_all _ _) (takeWhile_all _ _)
            (by simpa using hd2)
    · rw [if_neg hc] at h
      by_cases hd1 : (l.takeWhile Char.isDigit).isEmpty
      · rw [if_pos hd1] at h
        exact absurd h (by simp)
      · rw [if_neg hd1] at h
        have hinj := Option.some.inj h
        have h1 : l.takeWhile Char.isDigit = num := congrArg Prod.fst hinj
        have h2 : c :: r2 = rest := congrArg Prod.snd hinj
        subst h1
        subst h2
        refine ⟨hld, ?_⟩
        unfold numericShapeCore
        rw [dropWhile_of_all _ _ (takeWhile_all _ _)]
        dsimp only
        rw [takeWhile_of_all _ _ (takeWhile_all _ _)]
        simpa using hd1

theorem numericShape_of_core {num : List Char} (h : numericShapeCore num = true) :
    numericShape num = true := by
  cases num with
  | nil => exact absurd h (by decide)
  | cons n ns =>
    show (if n = '+' ∨ n = '-' then numericShapeCore ns else numericShapeCore (n :: ns)) = true
    by_cases hs : n = '+' ∨ n = '-'
    · exfalso
      have hnd : n.isDigit = false := by rcases hs with rfl | rfl <;> decide
      have hne : (n == '.') = false := by rcases hs with rfl | rfl <;> decide
      unfold numericShapeCore at h
      rw [List.dropWhile_cons, if_neg (by simp [hnd])] at h
      dsimp only at h
      simp [hne] at h
    · rw [if_neg hs]
      exact h

theorem numericShape_sign {c : Char} {p1 : List Char} (hs : c = '+' ∨ c = '-')
    (h : numericShapeCore p1 = true) : numericShape (c :: p1) = true := by
  show (if c = '+' ∨ c = '-' then numericShapeCore p1 else numericShapeCore (c :: p1)) = true
  rw [if_pos hs]
  exact h

theorem leadNumeric_eq_some {l num rest : List Char} (h : leadNumeric l = some (num, rest)) :
    l = num ++ rest ∧ numericShape num = true := by
  cases l with
  | nil => exact absurd h (by simp [leadNumeric])
  | cons c cs =>
    rw [show leadNumeric (c :: cs) =
        (if c = '+' ∨ c = '-' then
          Option.map (fun p => (c :: p.1, p.2)) (leadNumericCore cs)
        else leadNumericCore (c :: cs)) from rfl] at h
    by_cases hs : c = '+' ∨ c = '-'
    · rw [if_pos hs] at h
      cases hcore : leadNumericCore cs with
      | none =>
        rw [hcore] at h
        exact absurd h (by simp)
      | some p =>
        rw [hcore] at h
        obtain ⟨p1, p2⟩ := p
        simp only [Option.map_some'] at h
        have hinj := Option.some.inj h
        have h1 : c :: p1 = num := congrArg Prod.fst hinj
        have h2 : p2 = rest := congrArg Prod.snd hinj
        subst h1
        subst h2
        obtain ⟨hl, hcoreShape⟩ := leadNumericCore_eq_some hcore
        exact ⟨by rw [List.cons_append, ← hl], numericShape_sign hs hcoreShape⟩
    · rw [if_neg hs] at h
      obtain ⟨hl, hcoreShape⟩ := leadNumericCore_eq_some h
      exact ⟨hl, numericShape_of_core hcoreShape⟩

theorem legendReachable_iff (l : List Char) :
    legendReachable l = true ↔
      ∃ gap t, l = gap ++ legendChars ++ t ∧ ∀ ch ∈ gap, ch ≠ '\n' := by
  induction l with
  | nil =>
    constructor
    · intro h
      exact absurd h (by decide)
    · rintro ⟨gap, t, hl, -⟩
      exfalso
      rcases List.append_eq_nil.mp hl.symm with ⟨h1, -⟩
      rcases List.append_eq_nil.mp h1 with ⟨-, h2⟩
      exact absurd h2 (by decide)
  | cons c rest ih =>
    simp only [legendReachable, Bool.or_eq_true, Bool.and_eq_true, listStartsWith_iff,
      bne_iff_ne]
    constructor
    · rintro (⟨t, ht⟩ | ⟨hne, hr⟩)
      · exact ⟨[], t, by simpa using ht, by simp⟩
      · obtain ⟨gap, t, hrest, hgap⟩ := ih.mp hr
        refine ⟨c :: gap, t, by simp [hrest], ?_⟩
        intro ch hch
        rcases List.mem_cons.mp hch with rfl | h'
        · exact hne
        · exact hgap ch h'
    · rintro ⟨gap, t, hl, hgap⟩
      cases gap with
      | nil => exact Or.inl ⟨t, by simpa using hl⟩
      | cons g gs =>
        have h' : c = g ∧ rest = gs ++ legendChars ++ t := by simpa using hl
        refine Or.inr ⟨?_, ih.mpr ⟨gs, t, h'.2, fun ch hch => hgap ch (List.mem_cons_of_mem _ hch)⟩⟩
        rw [h'.1]
        exact hgap g (List.mem_cons_self _ _)

/-- C5: coercion strips non-ASCII characters, then tries the integer parse,
then the float parse; failing both, a leading numeric substring eventually
followed (through non-newline characters) by the literal `Legend` is
returned as a string, and otherwise the stripped string is returned
unchanged. In particular, a string of only non-ASCII characters coerces to
the empty string and the stripped string contains no character with code
point 128 or higher. -/
theorem claim5_coercion (s : String) :
    (∀ ch ∈ (replace_all_non_ASCII s).toList, ch.toNat < 128) ∧
    (is_integer (replace_all_non_ASCII s) = true →
      try_to_convert_to_numeric s = Value.intV (pyIntVal (replace_all_non_ASCII s))) ∧
    (is_integer (replace_all_non_ASCII s) = false →
      is_float (replace_all_non_ASCII s) = true →
      try_to_convert_to_numeric s = Value.floatV (replace_all_non_ASCII s)) ∧
    (∀ num, is_integer (replace_all_non_ASCII s) = false →
      is_float (replace_all_non_ASCII s) = false →
      legendMatch (replace_all_non_ASCII s) = some num →
      try_to_convert_to_numeric s = Value.strV num ∧
      numericShape num.toList = true ∧
      ∃ gap tail2, (replace_all_non_ASCII s).toList =
        num.toList ++ gap ++ legendChars ++ tail2 ∧ ∀ ch ∈ gap, ch ≠ '\n') ∧
    (is_integer (replace_all_non_ASCII s) = false →
      is_float (replace_all_non_ASCII s) = false →
      legendMatch (replace_all_non_ASCII s) = none →
      try_to_convert_to_numeric s = Value.strV (replace_all_non_ASCII s)) ∧
    ((∀ ch ∈ s.toList, 128 ≤ ch.toNat) → try_to_convert_to_numeric s = Value.strV "") := by
  refine ⟨?_, ?_, ?_, ?_, ?_, ?_⟩
  · intro ch hch
    have hmem : ch ∈ s.toList.filter (fun c => c.toNat < 128) := hch
    have := (List.mem_filter.mp hmem).2
    simpa using this
  · intro h
    unfold try_to_convert_to_numeric
    rw [if_pos h]
  · intro h1 h2
    unfold try_to_convert_to_numeric
    rw [if_neg (by simp [h1]), if_pos h2]
  · intro num h1 h2 hLM
    have hdec : numericShape num.toList = true ∧
        ∃ gap tail2, (replace_all_non_ASCII s).toList =
          num.toList ++ gap ++ legendChars ++ tail2 ∧ ∀ ch ∈ gap, ch ≠ '\n' := by
      unfold legendMatch at hLM
      cases hL : leadNumeric (replace_all_non_ASCII s).toList with
      | none =>
        rw [hL] at hLM
        exact absurd hLM (by simp)
      | some pr =>
        obtain ⟨numL, restL⟩ := pr
        rw [hL] at hLM
        dsimp only at hLM
        by_cases hR : legendReachable restL = true
        · rw [if_pos hR] at hLM
          have hnum : String.mk numL = num := Option.some.inj hLM
          obtain ⟨hl, hshape⟩ := leadNumeric_eq_some hL
          obtain ⟨gap, t2, hrest, hgap⟩ := (legendReachable_iff restL).mp hR
          subst hnum
          refine ⟨hshape, gap, t2, ?_, hgap⟩
          rw [hl, hrest]
          simp [List.append_assoc]
        · rw [if_neg hR] at hLM
          exact absurd hLM (by simp)
    refine ⟨?_, hdec.1, hdec.2⟩
    unfold try_to_convert_to_numeric
    rw [if_neg (by simp [h1]), if_neg (by simp [h2]), hLM]
  · intro h1 h2 h3
    unfold try_to_convert_to_numeric
    rw [if_neg (by simp [h1]), if_neg (by simp [h2]), h3]
  · intro hna
    have hfil : s.toList.filter (fun c => c.toNat < 128) = [] := by
      refine List.filter_eq_nil_iff.mpr fun c hc => ?_
      have hge := hna c hc
      simp only [decide_eq_true_eq]
      omega
    have hv : replace_all_non_ASCII s = "" := by
      unfold replace_all_non_ASCII
      rw [hfil]
    unfold try_to_convert_to_numeric
    rw [hv]
    rfl

/-- C5 witness: a numeric value with a trailing Legend footnote marker is
coerced to the leading numeric text. -/
theorem claim5_witness :
    try_to_convert_to_numeric "12.5LegendE" = Value.strV "12.5" :=
  ((claim5_coercion "12.5LegendE").2.2.2.1 "12.5" rfl rfl rfl).1

/-- Source `get_default_data_value` (lines 36-44): empty string for the four
text columns, `0` otherwise. -/
def get_default_data_value (column_name : String) : Value :=
  if column_name = "station_name" ∨ column_name = "city" ∨ column_name = "province" ∨
      column_name = "monthly_data_url" then Value.strV ""
  else Value.intV 0

/-- The `.replace('\'', '\'\'')` quoting applied to every rendered value in
`generate_update_table_sql`. -/
def sql_quote_escape (s : String) : String :=
  String.mk (s.toList.flatMap (fun c => if c = '\'' then ['\'', '\''] else [c]))

/-- Python `repr` of a plain string as used by `"{!r}".format`: double
quotes when the text contains a single quote and no double quote, single
quotes otherwise (the escape-free fragment the rendered values live in). -/
def py_repr_str (s : String) : String :=
  if s.toList.contains '\'' && !(s.toList.contains '"') then "\"" ++ s ++ "\""
  else "'" ++ s ++ "'"

/-- Python `column_map[key]` as used for the WHERE columns; the source
raises `KeyError` on a missing key, the theorems only use it where the key
is present. -/
def py_dict_get (column_map : List (String × Value)) (key : String) : Value :=
  (assocLookup column_map key).getD (Value.intV 0)

/-- A column of the SQLAlchemy `Table` of lines 589-612. -/
structure SqlColumn where
  name : String
  primaryKey : Bool
deriving DecidableEq

/-- The SQLAlchemy table object passed to `generate_update_table_sql`. -/
structure SqlTable where
  name : String
  columns : List SqlColumn
deriving DecidableEq

/-- Source lines 544-546: name-to-rendered-value pairs for every column
that is not part of the primary key, defaulting missing names. -/
def update_column_dict (column_map : List (String × Value)) (sql_table : SqlTable) :
    List (String × String) :=
  (sql_table.columns.filter (fun c => !c.primaryKey)).map
    (fun c => (c.name, sql_quote_escape (py_str
      ((assocLookup column_map c.name).getD (get_default_data_value c.name)))))

/-- Source lines 550-552: name-to-rendered-value pairs for every primary-key
column. -/
def where_column_dict (column_map : List (String × Value)) (sql_table : SqlTable) :
    List (String × String) :=
  (sql_table.columns.filter (fun c => c.primaryKey)).map
    (fun c => (c.name, sql_quote_escape (py_str (py_dict_get column_map c.name))))

/-- Rendering of one `"{!s} = {!r}".format(key, value)` item. -/
def render_assign (kv : String × String) : String :=
  kv.1 ++ " = " ++ py_repr_str kv.2

/-- Source `generate_update_table_sql` (lines 540-565), including the final
`where_statement.replace('"', "'")`. -/
def generate_update_table_sql (column_map : List (String × Value)) (sql_table : SqlTable) :
    String :=
  "UPDATE " ++ sql_table.name ++
    (" SET " ++ String.intercalate ", "
      ((update_column_dict column_map sql_table).map render_assign)) ++
    String.mk ((" WHERE " ++ String.intercalate " AND "
      ((where_column_dict column_map sql_table).map render_assign)).toList.map
        (fun c => if c = '"' then '\'' else c))

/-- The primary-key tuple of a record under a table's key columns. -/
def primary_key_of (sql_table : SqlTable) (column_map : List (String × Value)) :
    List String :=
  (sql_table.columns.filter (fun c => c.primaryKey)).map
    (fun c => py_str (py_dict_get column_map c.name))

/-- The insert-or-update step of `insert_climate_data_into_database` (source
lines 629-639) for one record, the database modelled by the primary-key
tuples it already holds: an insert on an existing key raises
`IntegrityError`, which is caught and answered with the statement from
`generate_update_table_sql`; no error reaches the caller. -/
def insert_climate_record (existing : List (List String)) (sql_table : SqlTable)
    (column_map : List (String × Value)) : List (List String) × Option String :=
  if primary_key_of sql_table column_map ∈ existing then
    (existing, some (generate_update_table_sql column_map sql_table))
  else (primary_key_of sql_table column_map :: existing, none)

/-- C9: the fallback UPDATE maps exactly the non-primary-key columns in its
SET clause (each present column to its new value) and exactly the
primary-key columns in its WHERE clause, and a key collision is answered
with that statement instead of an error. -/
theorem claim9_update_fallback (column_map : List (String × Value)) (t : SqlTable)
    (existing : List (List String)) :
    ((update_column_dict column_map t).map Prod.fst =
      (t.columns.filter (fun c => !c.primaryKey)).map (fun c => c.name)) ∧
    ((where_column_dict column_map t).map Prod.fst =
      (t.columns.filter (fun c => c.primaryKey)).map (fun c => c.name)) ∧
    (∀ c ∈ t.columns, c.primaryKey = false → ∀ v, assocLookup column_map c.name = some v →
      (c.name, sql_quote_escape (py_str v)) ∈ update_column_dict column_map t) ∧
    (∀ c ∈ t.columns, c.primaryKey = true → ∀ v, assocLookup column_map c.name = some v →
      (c.name, sql_quote_escape (py_str v)) ∈ where_column_dict column_map t) ∧
    (generate_update_table_sql column_map t =
      "UPDATE " ++ t.name ++
        (" SET " ++ String.intercalate ", "
          ((update_column_dict column_map t).map render_assign)) ++
        String.mk ((" WHERE " ++ String.intercalate " AND "
          ((where_column_dict column_map t).map render_assign)).toList.map
            (fun c => if c = '"' then '\'' else c))) ∧
    (primary_key_of t column_map ∈ existing →
      insert_climate_record existing t column_map =
        (existing, some (generate_update_table_sql column_map t))) := by
  refine ⟨?_, ?_, ?_, ?_, rfl, ?_⟩
  · unfold update_column_dict
    rw [List.map_map]
    rfl
  · unfold where_column_dict
    rw [List.map_map]
    rfl
  · intro c hc hpk v hv
    unfold update_column_dict
    refine List.mem_map.mpr ⟨c, List.mem_filter.mpr ⟨hc, by simp [hpk]⟩, ?_⟩
    rw [hv]
    rfl
  · intro c hc hpk v hv
    unfold where_column_dict
    refine List.mem_map.mpr ⟨c, List.mem_filter.mpr ⟨hc, by simp [hpk]⟩, ?_⟩
    unfold py_dict_get
    rw [hv]
    rfl
  · intro h
    unfold insert_climate_record
    rw [if_pos h]

/-- C9 witness: a record whose key already sits in the store is answered
with the generated UPDATE statement. -/
theorem claim9_witness :
    insert_climate_record
        [primary_key_of ⟨"t", [⟨"city", true⟩, ⟨"max_temp", false⟩]⟩
          [("city", Value.strV "Toronto"), ("max_temp", Value.intV 5)]]
        ⟨"t", [⟨"city", true⟩, ⟨"max_temp", false⟩]⟩
        [("city", Value.strV "Toronto"), ("max_temp", Value.intV 5)] =
      ([primary_key_of ⟨"t", [⟨"city", true⟩, ⟨"max_temp", false⟩]⟩
          [("city", Value.strV "Toronto"), ("max_temp", Value.intV 5)]],
        some (generate_update_table_sql
          [("city", Value.strV "Toronto"), ("max_temp", Value.intV 5)]
          ⟨"t", [⟨"city", true⟩, ⟨"max_temp", false⟩]⟩)) :=
  (claim9_update_fallback [("city", Value.strV "Toronto"), ("max_temp", Value.intV 5)]
    ⟨"t", [⟨"city", true⟩, ⟨"max_temp", false⟩]⟩
    [primary_key_of ⟨"t", [⟨"city", true⟩, ⟨"max_temp", false⟩]⟩
      [("city", Value.strV "Toronto"), ("max_temp", Value.intV 5)]]).2.2.2.2.2
    (List.mem_singleton.mpr rfl)

/-- Source `list_of_strings_to_check_for` (line 492); `r'\xa'` is the
three-character text backslash-x-a. -/
def list_of_strings_to_check_for : List String :=
  ["LegendMM", "LegendTT", "\\xa"]

/-- The replacement condition of source line 496:
`str(value) == '' or any(sub_string in str(value) for sub_string in
list_of_strings_to_check_for)`. -/
def is_marker_value (v : Value) : Bool :=
  py_str v == "" || list_of_strings_to_check_for.any
    (fun sub => listContainsSub sub.toList (py_str v).toList)

/-- The replacement loop of source lines 494-497 over the column map. -/
def marker_cleanup (column_map : List (String × Value)) : List (String × Value) :=
  column_map.map (fun kv => if is_marker_value kv.2 then (kv.1, Value.intV 0) else kv)

/-- Source `construct_column_insert_map_from_tuple` (lines 473-499), the
database schema column list supplied as a parameter: extend the record's
field map with defaults for the missing table columns, then replace every
empty/marker value by `0`. -/
def construct_column_insert_map_from_tuple (tuple_map : List (String × Value))
    (sql_column_name_list : List String) : List (String × Value) :=
  marker_cleanup (tuple_map ++
    (sql_column_name_list.filter
      (fun n => !((tuple_map.map Prod.fst).contains n))).map
      (fun n => (n, get_default_data_value n)))

theorem is_marker_value_false {v : Value} (h : is_marker_value v = false) :
    py_str v ≠ "" ∧ ∀ sub ∈ list_of_strings_to_check_for,
      listContainsSub sub.toList (py_str v).toList = false := by
  simp only [is_marker_value, Bool.or_eq_false_iff, beq_eq_false_iff_ne, ne_eq,
    List.any_eq_false] at h
  exact ⟨h.1, fun sub hsub => by simpa using h.2 sub hsub⟩

theorem is_marker_value_true {v : Value}
    (h : py_str v = "" ∨ ∃ sub ∈ list_of_strings_to_check_for,
      listContainsSub sub.toList (py_str v).toList = true) :
    is_marker_value v = true := by
  simp only [is_marker_value, Bool.or_eq_true, beq_iff_eq, List.any_eq_true]
  exact h

/-- C10: in the column map built for persistence, every entry whose string
form is empty or contains `'LegendMM'`, `'LegendTT'` or `'\xa'` is replaced
by `0` (second and third conjuncts describe the replacement pass), so no
entry of the finished map is empty or carries such a marker (first
conjunct). -/
theorem claim10_marker_replacement (tuple_map : List (String × Value))
    (sql_column_name_list : List String) (kv : String × Value) :
    (kv ∈ construct_column_insert_map_from_tuple tuple_map sql_column_name_list →
      py_str kv.2 ≠ "" ∧ ∀ sub ∈ list_of_strings_to_check_for,
        listContainsSub sub.toList (py_str kv.2).toList = false) ∧
    (∀ column_map : List (String × Value), kv ∈ column_map →
      (py_str kv.2 = "" ∨ ∃ sub ∈ list_of_strings_to_check_for,
        listContainsSub sub.toList (py_str kv.2).toList = true) →
      (kv.1, Value.intV 0) ∈ marker_cleanup column_map) ∧
    (∀ column_map : List (String × Value), kv ∈ column_map →
      py_str kv.2 ≠ "" →
      (∀ sub ∈ list_of_strings_to_check_for,
        listContainsSub sub.toList (py_str kv.2).toList = false) →
      kv ∈ marker_cleanup column_map) := by
  refine ⟨?_, ?_, ?_⟩
  · intro hmem
    unfold construct_column_insert_map_from_tuple marker_cleanup at hmem
    obtain ⟨kv0, -, hkv⟩ := List.mem_map.mp hmem
    by_cases hm : is_marker_value kv0.2
    · rw [if_pos hm] at hkv
      subst hkv
      constructor
      · show py_str (Value.intV 0) ≠ ""
        decide
      · intro sub hsub
        show listContainsSub sub.toList (py_str (Value.intV 0)).toList = false
        simp only [list_of_strings_to_check_for, List.mem_cons, List.not_mem_nil,
          or_false] at hsub
        rcases hsub with rfl | rfl | rfl <;> decide
    · rw [if_neg hm] at hkv
      subst hkv
      exact is_marker_value_false (by simpa using hm)
  · intro column_map hmem hbad
    unfold marker_cleanup
    refine List.mem_map.mpr ⟨kv, hmem, ?_⟩
    rw [if_pos (is_marker_value_true hbad)]
  · intro column_map hmem hne hsubs
    unfold marker_cleanup
    refine List.mem_map.mpr ⟨kv, hmem, ?_⟩
    have hm : is_marker_value kv.2 = false := by
      cases hb : is_marker_value kv.2
      · rfl
      · exfalso
        simp only [is_marker_value, Bool.or_eq_true, beq_iff_eq, List.any_eq_true] at hb
        rcases hb with hb | ⟨sub, hsub, hcon⟩
        · exact hne hb
        · have hcon' : listContainsSub sub.toList (py_str kv.2).toList = true := hcon
          rw [hsubs sub hsub] at hcon'
          exact Bool.false_ne_true hcon'
    rw [if_neg (by simp [hm])]

/-- C10 witness: a raw `LegendMM` marker value is replaced by `0`. -/
theorem claim10_witness :
    ("max_temp", Value.intV 0) ∈ marker_cleanup [("max_temp", Value.strV "LegendMM")] :=
  (claim10_marker_replacement [] [] ("max_temp", Value.strV "LegendMM")).2.1
    [("max_temp", Value.strV "LegendMM")] (List.mem_singleton.mpr rfl)
    (Or.inr ⟨"LegendMM", by decide, by decide⟩)

/-- C6 witness: the characterization evaluated at the value `"b2"`. -/
theorem claim6_witness :
    has_non_zero_digits (Value.strV "b2") = true ↔
      ((is_a_number (Value.strV "b2") = true ∧ py_eq_zero (Value.strV "b2") = false) ∨
        ∃ c ∈ (py_str (Value.strV "b2")).toList, c.isDigit = true ∧ c ≠ '0') :=
  claim6_has_non_zero_digits.1 (Value.strV "b2")

end Scraper
